import Mathlib

/-!
Verification development for the ODE-solver GUI (`script.py`).

The program is a tkinter window around three library calls: sympy parsing
(`sympify`/`lambdify`), scipy integration (`solve_ivp`) and matplotlib
plotting.  The embedding below models:

* Python strings as `List Char`, with `split`, `strip` and `float()`
  reimplemented faithfully for the character classes the program uses;
* sympy expressions as a small AST `Expr`, with a tokenizer and a
  precedence parser following Python expression syntax for the operator
  set the program documents (`+ - * / **`, the functions
  `sin cos exp sqrt`, parentheses, numbers, identifiers);
* numpy's floating-point value domain as exact rationals; transcendental
  functions, division by zero and non-integer powers are delegated to an
  explicit `NumpyBackend` parameter since no verified property depends on
  their numeric values;
* exceptions as `Except PyErr`, and GUI side effects (modal error dialogs,
  invoking the integrator) as an explicit `Event` trace;
* the matplotlib axes as a record of curves, title, labels, grid and
  legend flags.

Methods of the class that the provided source references but does not
include (`show_error`, `load_example`; the source notes other methods are
omitted) are modelled from the spec and marked as such in their doc
comments.
-/

namespace ODE

/-! ## Python string primitives -/

/-- Characters Python's `str.strip()` removes by default (the whitespace
the program's inputs can contain). -/
def isSpace (c : Char) : Bool :=
  c = ' ' || c = '\t' || c = '\n' || c = '\r'

/-- Model of Python `str.strip()` from the left. -/
def lstrip (cs : List Char) : List Char := cs.dropWhile isSpace

/-- Model of Python `str.strip()` from the right. -/
def rstrip (cs : List Char) : List Char := (cs.reverse.dropWhile isSpace).reverse

/-- Model of Python `str.strip()`. -/
def strip (cs : List Char) : List Char := rstrip (lstrip cs)

/-- Model of Python `str.split(sep)` for a single-character separator:
`"a=b=c".split("=") == ["a","b","c"]`, `"".split("=") == [""]`. -/
def splitOnChar (sep : Char) : List Char → List (List Char)
  | [] => [[]]
  | c :: cs =>
    let r := splitOnChar sep cs
    if c = sep then [] :: r
    else
      match r with
      | [] => [[c]]
      | h :: t => (c :: h) :: t

/-! ## Python float() -/

def isDigit (c : Char) : Bool := '0' ≤ c && c ≤ '9'

def digitsToNat (ds : List Char) : ℕ :=
  ds.foldl (fun n c => 10 * n + (c.toNat - 48)) 0

/-- Splits the longest digit run off the front of the input. -/
def takeDigits : List Char → List Char × List Char
  | [] => ([], [])
  | c :: cs =>
    if isDigit c then
      let r := takeDigits cs
      (c :: r.1, r.2)
    else ([], c :: cs)

/-- Consumes an optional sign, returning whether it was a minus. -/
def takeSign : List Char → Bool × List Char
  | '-' :: cs => (true, cs)
  | '+' :: cs => (false, cs)
  | cs => (false, cs)

/-- Powers of ten as rationals, written as an explicit recursion so that
concrete instances reduce by evaluation. -/
def pow10 : ℕ → ℚ
  | 0 => 1
  | n + 1 => 10 * pow10 n

/-- Parses a Python float literal body ( `digits [. digits] [e [sign] digits]` )
off the front of the input, returning its value and the rest.  Underscore
separators and the `inf`/`nan` spellings accepted by Python `float()` are
not modelled; the program's inputs are plain decimal literals. -/
def floatCore (cs : List Char) : Option (ℚ × List Char) :=
  let ip := takeDigits cs
  let fp :=
    match ip.2 with
    | '.' :: cs2 => takeDigits cs2
    | _ => ([], ip.2)
  if ip.1 = [] ∧ fp.1 = [] then none
  else
    let mant : ℚ := (digitsToNat (ip.1 ++ fp.1) : ℚ) / pow10 fp.1.length
    match fp.2 with
    | c :: cs3 =>
      if c = 'e' ∨ c = 'E' then
        let sg := takeSign cs3
        let ed := takeDigits sg.2
        if ed.1 = [] then none
        else
          some ((if sg.1 then mant / pow10 (digitsToNat ed.1)
                 else mant * pow10 (digitsToNat ed.1)), ed.2)
      else some (mant, fp.2)
    | [] => some (mant, [])

/-- Model of Python `float(s)`: optional surrounding whitespace, optional
sign, then a float literal spanning the whole remainder. -/
def pythonFloat (cs : List Char) : Option ℚ :=
  let s := strip cs
  let sg := takeSign s
  match floatCore sg.2 with
  | some (v, []) => some (if sg.1 then -v else v)
  | _ => none

/-! ## Exceptions and GUI events -/

/-- The Python exceptions the program can raise.  Exact message texts
follow `str(e)` except that the quote characters Python puts around
offending tokens are elided. -/
inductive PyErr where
  | valueError (msg : String)
  | sympifyError (msg : String)
  | nameError (msg : String)
  | indexError (msg : String)
  deriving DecidableEq, Repr

/-- Model of Python `str(e)`. -/
def PyErr.msg : PyErr → String
  | .valueError m => m
  | .sympifyError m => m
  | .nameError m => m
  | .indexError m => m

deriving instance DecidableEq for Except

/-- Observable side effects of a button action: showing a modal error
dialog, and handing a problem to the `solve_ivp` integrator. -/
inductive Event where
  | showError (msg : String)
  | solveIvpCall
  deriving DecidableEq, Repr

/-- Modelled from the spec: the `show_error` method is called on every
error path of the source but its body is among the methods the source
omits; per the spec it surfaces the message as a modal error dialog and
always succeeds. -/
def show_error (msg : String) : List Event := [Event.showError msg]

/-! ## Sympy expressions -/

/-- The functions the program documents as supported. -/
inductive Func where
  | sin | cos | exp | sqrt
  deriving DecidableEq, Repr

/-- Model of a sympy expression over the operator set the program uses. -/
inductive Expr where
  | num (q : ℚ)
  | sym (name : String)
  | add (a b : Expr)
  | sub (a b : Expr)
  | mul (a b : Expr)
  | div (a b : Expr)
  | pow (a b : Expr)
  | neg (a : Expr)
  | call (f : Func) (a : Expr)
  deriving DecidableEq, Repr

/-- Stand-ins for the numpy floating-point operations whose exact values
the embedding does not model: the transcendental functions, division by
zero and powers with non-integer exponent.  No verified property depends
on these values, so they are kept abstract as a parameter. -/
structure NumpyBackend where
  app : Func → ℚ → ℚ
  divZero : ℚ → ℚ
  rpow : ℚ → ℚ → ℚ

/-- A concrete backend instance, used for evaluating witnesses whose
expressions never reach the abstracted operations. -/
def backend0 : NumpyBackend :=
  { app := fun _ _ => 0, divZero := fun _ => 0, rpow := fun _ _ => 0 }

/-- Evaluation of a (lambdified) expression under an environment; an
unbound symbol raises `NameError` exactly as the function generated by
`lambdify` does. -/
def evalExpr (b : NumpyBackend) (env : String → Option ℚ) : Expr → Except PyErr ℚ
  | .num q => .ok q
  | .sym n =>
    match env n with
    | some v => .ok v
    | none => .error (.nameError ("name " ++ n ++ " is not defined"))
  | .add x y => do return (← evalExpr b env x) + (← evalExpr b env y)
  | .sub x y => do return (← evalExpr b env x) - (← evalExpr b env y)
  | .mul x y => do return (← evalExpr b env x) * (← evalExpr b env y)
  | .div x y => do
    let xv ← evalExpr b env x
    let yv ← evalExpr b env y
    return (if yv = 0 then b.divZero xv else xv / yv)
  | .pow x y => do
    let xv ← evalExpr b env x
    let yv ← evalExpr b env y
    return (if yv.den = 1 then xv ^ yv.num else b.rpow xv yv)
  | .neg x => do return -(← evalExpr b env x)
  | .call f a => do return b.app f (← evalExpr b env a)

/-- Model of sympy `expr.subs(mapping)`: replaces each symbol that has a
binding by its numeric value. -/
def subs (pv : List (String × ℚ)) : Expr → Expr
  | .num q => .num q
  | .sym n =>
    match pv.lookup n with
    | some v => .num v
    | none => .sym n
  | .add x y => .add (subs pv x) (subs pv y)
  | .sub x y => .sub (subs pv x) (subs pv y)
  | .mul x y => .mul (subs pv x) (subs pv y)
  | .div x y => .div (subs pv x) (subs pv y)
  | .pow x y => .pow (subs pv x) (subs pv y)
  | .neg x => .neg (subs pv x)
  | .call f a => .call f (subs pv a)

/-- Free symbols of an expression (with multiplicity; only membership is
used). -/
def freeSyms : Expr → List String
  | .num _ => []
  | .sym n => [n]
  | .add x y => freeSyms x ++ freeSyms y
  | .sub x y => freeSyms x ++ freeSyms y
  | .mul x y => freeSyms x ++ freeSyms y
  | .div x y => freeSyms x ++ freeSyms y
  | .pow x y => freeSyms x ++ freeSyms y
  | .neg x => freeSyms x
  | .call _ a => freeSyms a

/-! ## The sympify model: tokenizer and parser

`sympify(rhs, locals=params)` parses the text with Python's expression
grammar.  The model covers the subset the program documents: numbers,
identifiers, `+ - * / **`, parentheses, and calls of the four supported
functions.  Python operator precedence is followed (`**` binds tighter
than unary minus, which binds tighter than `*` and `/`, which bind
tighter than `+` and binary `-`; `**` is right-associative and its
exponent may be signed).  Applying an identifier other than the four
supported functions is a parse failure in the model (sympy would build an
undefined function that fails at evaluation instead; no claim depends on
the difference). -/

inductive Tok where
  | num (q : ℚ)
  | ident (s : String)
  | plus | minus | star | slash | dstar | lparen | rparen
  deriving DecidableEq, Repr

def isAlpha (c : Char) : Bool :=
  ('a' ≤ c && c ≤ 'z') || ('A' ≤ c && c ≤ 'Z')

def isIdentChar (c : Char) : Bool := isAlpha c || isDigit c || c = '_'

/-- Splits the longest identifier run off the front of the input. -/
def takeIdent : List Char → List Char × List Char
  | [] => ([], [])
  | c :: cs =>
    if isIdentChar c then
      let r := takeIdent cs
      (c :: r.1, r.2)
    else ([], c :: cs)

/-- Fuel-driven tokenizer; `tokenize` supplies fuel covering the input. -/
def tokenizeF : ℕ → List Char → Option (List Tok)
  | 0, [] => some []
  | 0, _ :: _ => none
  | fuel + 1, [] => let _ := fuel; some []
  | fuel + 1, c :: cs =>
    if isSpace c then tokenizeF fuel cs
    else if isDigit c || c = '.' then
      match floatCore (c :: cs) with
      | some (v, rest) => (tokenizeF fuel rest).map (Tok.num v :: ·)
      | none => none
    else if isAlpha c || c = '_' then
      let r := takeIdent (c :: cs)
      (tokenizeF fuel r.2).map (Tok.ident (String.mk r.1) :: ·)
    else if c = '+' then (tokenizeF fuel cs).map (Tok.plus :: ·)
    else if c = '-' then (tokenizeF fuel cs).map (Tok.minus :: ·)
    else if c = '*' then
      match cs with
      | '*' :: cs2 => (tokenizeF fuel cs2).map (Tok.dstar :: ·)
      | _ => (tokenizeF fuel cs).map (Tok.star :: ·)
    else if c = '/' then (tokenizeF fuel cs).map (Tok.slash :: ·)
    else if c = '(' then (tokenizeF fuel cs).map (Tok.lparen :: ·)
    else if c = ')' then (tokenizeF fuel cs).map (Tok.rparen :: ·)
    else none

def tokenize (cs : List Char) : Option (List Tok) := tokenizeF cs.length cs

/-- The function names `sympify`+`lambdify` resolve to numpy functions. -/
def funcOfName : String → Option Func
  | "sin" => some Func.sin
  | "cos" => some Func.cos
  | "exp" => some Func.exp
  | "sqrt" => some Func.sqrt
  | _ => none

mutual

/-- Additive level of the expression grammar. -/
def parseE : ℕ → List Tok → Option (Expr × List Tok)
  | 0, _ => none
  | fuel + 1, ts => do
    let r ← parseT fuel ts
    parseEloop fuel r.1 r.2

/-- Left-associative chaining of `+` and binary `-`. -/
def parseEloop : ℕ → Expr → List Tok → Option (Expr × List Tok)
  | 0, _, _ => none
  | fuel + 1, acc, Tok.plus :: ts => do
    let r ← parseT fuel ts
    parseEloop fuel (Expr.add acc r.1) r.2
  | fuel + 1, acc, Tok.minus :: ts => do
    let r ← parseT fuel ts
    parseEloop fuel (Expr.sub acc r.1) r.2
  | _ + 1, acc, ts => some (acc, ts)

/-- Multiplicative level of the expression grammar. -/
def parseT : ℕ → List Tok → Option (Expr × List Tok)
  | 0, _ => none
  | fuel + 1, ts => do
    let r ← parseU fuel ts
    parseTloop fuel r.1 r.2

/-- Left-associative chaining of `*` and `/`. -/
def parseTloop : ℕ → Expr → List Tok → Option (Expr × List Tok)
  | 0, _, _ => none
  | fuel + 1, acc, Tok.star :: ts => do
    let r ← parseU fuel ts
    parseTloop fuel (Expr.mul acc r.1) r.2
  | fuel + 1, acc, Tok.slash :: ts => do
    let r ← parseU fuel ts
    parseTloop fuel (Expr.div acc r.1) r.2
  | _ + 1, acc, ts => some (acc, ts)

/-- Unary `+` and `-`. -/
def parseU : ℕ → List Tok → Option (Expr × List Tok)
  | 0, _ => none
  | fuel + 1, Tok.minus :: ts => (parseU fuel ts).map (fun r => (Expr.neg r.1, r.2))
  | fuel + 1, Tok.plus :: ts => parseU fuel ts
  | fuel + 1, ts => parseP fuel ts

/-- Power level: right-associative `**` whose exponent may be unary. -/
def parseP : ℕ → List Tok → Option (Expr × List Tok)
  | 0, _ => none
  | fuel + 1, ts => do
    let r ← parseA fuel ts
    match r.2 with
    | Tok.dstar :: ts2 => do
      let r2 ← parseU fuel ts2
      return (Expr.pow r.1 r2.1, r2.2)
    | _ => some r

/-- Atoms: numbers, identifiers, calls of supported functions, parens. -/
def parseA : ℕ → List Tok → Option (Expr × List Tok)
  | 0, _ => none
  | _ + 1, Tok.num q :: ts => some (Expr.num q, ts)
  | fuel + 1, Tok.ident nm :: Tok.lparen :: ts =>
    match funcOfName nm with
    | some f => do
      let r ← parseE fuel ts
      match r.2 with
      | Tok.rparen :: ts2 => return (Expr.call f r.1, ts2)
      | _ => none
    | none => none
  | _ + 1, Tok.ident nm :: ts => some (Expr.sym nm, ts)
  | fuel + 1, Tok.lparen :: ts => do
    let r ← parseE fuel ts
    match r.2 with
    | Tok.rparen :: ts2 => return (r.1, ts2)
    | _ => none
  | _ + 1, _ => none

end

/-- Model of `sympify(rhs, locals=params)` on the grammar subset above:
tokenize, parse a full expression, require all tokens consumed. -/
def sympifyL (cs : List Char) : Except PyErr Expr :=
  match tokenize cs with
  | none => .error (.sympifyError "could not parse expression")
  | some ts =>
    match parseE (6 * ts.length + 6) ts with
    | some (e, []) => .ok e
    | _ => .error (.sympifyError "could not parse expression")

/-! ## GUI state -/

/-- The matplotlib axes of the plot area: the plotted curves (each a list
of points with its label), and the title/label/grid/legend settings.
`ax.clear()` resets every field. -/
structure PlotState where
  curves : List (List (ℚ × ℚ) × String)
  title : Option String
  xlabel : Option String
  ylabel : Option String
  grid : Bool
  legend : Bool
  deriving DecidableEq, Repr

/-- Model of `ax.clear()`. -/
def axClear : PlotState :=
  { curves := [], title := none, xlabel := none, ylabel := none,
    grid := false, legend := false }

/-- The widget state the actions read and write: the three text entries,
the parameter entry fields (name, text) in creation order, and the plot
axes. -/
structure GuiState where
  eqText : String
  icText : String
  timeText : String
  paramEntries : List (String × String)
  plot : PlotState
  deriving DecidableEq, Repr

/-- The state after `__init__`: default texts from `create_equation_input`
and `create_parameter_input`, axes titled and gridded by
`create_plot_area`. -/
def initState : GuiState :=
  { eqText := "dy/dt = -a*y + sin(b*t)"
    icText := "1.0"
    timeText := "0, 10"
    paramEntries := [("a", "0.5"), ("b", "1.0"), ("c", "0.8"), ("k", "1.0")]
    plot := { axClear with title := some "Solution Plot", grid := true } }

/-- Model of `clear_plot`: `ax.clear()`, then restore the title and the
grid, then redraw. -/
def clear_plot (s : GuiState) : GuiState :=
  { s with plot := { axClear with title := some "Solution Plot", grid := true } }

/-! ## parse_equation -/

/-- Model of Python `float(str)` raising `ValueError` on failure. -/
def floatE (str : String) : Except PyErr ℚ :=
  match pythonFloat str.toList with
  | some q => .ok q
  | none => .error (.valueError ("could not convert string to float: " ++ str))

/-- The right-hand-side text the parser uses: `eq_text.split("=")[1].strip()`.
The index is in range whenever the text contains at least one `=`, which
`parse_equation` checks first; out of range is mapped to the empty string. -/
def rhsFromEqL (cs : List Char) : List Char :=
  strip (((splitOnChar '=' cs).get? 1).getD [])

/-- The substring of the equation text after the first `=`, stripped —
this is what the spec says the parser uses; kept separate from
`rhsFromEqL` (what the code computes) so the two can be compared. -/
def rhsAfterFirstEqSpec (cs : List Char) : List Char :=
  strip (cs.dropWhile (fun c => c ≠ '=')).tail

/-- The dictionary comprehension of `parse_equation`: the parameters with
non-empty entry text, each mapped through `float`, in field order; the
first conversion failure raises. -/
def paramValues : List (String × String) → Except PyErr (List (String × ℚ))
  | [] => .ok []
  | (n, str) :: rest =>
    if str = "" then paramValues rest
    else
      match floatE str with
      | .error e => .error e
      | .ok v =>
        match paramValues rest with
        | .error e => .error e
        | .ok pv => .ok ((n, v) :: pv)

/-- The body of `parse_equation` inside its `try`: validate the format,
split off the right-hand side, sympify it, substitute the parameter
values.  The returned expression stands for the closure `lambdify` builds
from it; evaluation is `lambdifyEval`. -/
def parse_equation_body (s : GuiState) : Except PyErr Expr :=
  let eq_text := s.eqText.toList
  if '=' ∈ eq_text then
    match sympifyL (rhsFromEqL eq_text) with
    | .error e => .error e
    | .ok expr =>
      match paramValues s.paramEntries with
      | .error e => .error e
      | .ok pv => .ok (subs pv expr)
  else
    .error (.valueError "Equation must contain = sign")

/-- Model of `parse_equation`: any exception of the body is caught, shown
through `show_error` prefixed `Equation parsing error: `, and `None` is
returned. -/
def parse_equation (s : GuiState) : Option Expr × List Event :=
  match parse_equation_body s with
  | .ok e => (some e, [])
  | .error err => (none, show_error ("Equation parsing error: " ++ err.msg))

/-! ## solve -/

/-- Model of calling the function `lambdify((t, y), expr_sub, "numpy")`
returns: evaluate with only `t` and `y` bound. -/
def lambdifyEval (b : NumpyBackend) (expr : Expr) (t y : ℚ) : Except PyErr ℚ :=
  evalExpr b (fun n => if n = "t" then some t else if n = "y" then some y else none) expr

/-- The expression inside `ode_func`'s `try`: index into the state vector
and evaluate the right-hand side. -/
def ode_func_try (b : NumpyBackend) (expr : Expr) (t : ℚ) (ys : List ℚ) :
    Except PyErr ℚ :=
  match ys.get? 0 with
  | some y => lambdifyEval b expr t y
  | none => .error (.indexError "index 0 is out of bounds")

/-- Model of the `ode_func` wrapper defined inside `solve`: index into the
state vector, evaluate the right-hand side; any exception is shown through
`show_error` prefixed `Evaluation error: ` and re-raised. -/
def ode_func (b : NumpyBackend) (expr : Expr) (t : ℚ) (ys : List ℚ) :
    Except PyErr ℚ × List Event :=
  match ode_func_try b expr t ys with
  | .ok v => (.ok v, [])
  | .error e => (.error e, show_error ("Evaluation error: " ++ e.msg))

/-- Model of `np.linspace(t0, tf, n)`. -/
def linspace (t0 tf : ℚ) (n : ℕ) : List ℚ :=
  (List.range n).map (fun k => t0 + (tf - t0) * k / ((n : ℚ) - 1))

/-- Steps the right-hand side along the evaluation grid, threading the
events its evaluations emit; the first exception aborts and propagates.
The value update is an explicit Euler step — a stand-in for the adaptive
stepping of the external integrator, adequate because no claim concerns
the numeric samples, only that the callable is evaluated along the way
(starting at `t0`) and that its exceptions propagate. -/
def integrateEuler (f : ℚ → List ℚ → Except PyErr ℚ × List Event) :
    List ℚ → ℚ → Except PyErr (List ℚ) × List Event
  | [], _ => (.ok [], [])
  | [t], y =>
    match f t [y] with
    | (.ok _, evs) => (.ok [y], evs)
    | (.error e, evs) => (.error e, evs)
  | t :: t' :: ts, y =>
    match f t [y] with
    | (.ok d, evs) =>
      let r := integrateEuler f (t' :: ts) (y + (t' - t) * d)
      (r.1.map (y :: ·), evs ++ r.2)
    | (.error e, evs) => (.error e, evs)

/-- Model of the external `scipy.integrate.solve_ivp` call as the program
uses it: evaluate the wrapped callable over the 1000-point `t_eval` grid,
propagate its exceptions, and on success return the sampled times and
values. -/
def solve_ivp (f : ℚ → List ℚ → Except PyErr ℚ × List Event)
    (t0 tf : ℚ) (y0 : List ℚ) :
    Except PyErr (List ℚ × List ℚ) × List Event :=
  let ts := linspace t0 tf 1000
  match integrateEuler f ts (y0.headD 0) with
  | (.ok ys, evs) => (.ok (ts, ys), evs)
  | (.error e, evs) => (.error e, evs)

/-- Maps `float` over the comma-split time-span text, raising on the
first non-numeric token (`list(map(float, ...))`). -/
def mapFloatE : List (List Char) → Except PyErr (List ℚ)
  | [] => .ok []
  | p :: ps =>
    match floatE (String.mk p) with
    | .error e => .error e
    | .ok v =>
      match mapFloatE ps with
      | .error e => .error e
      | .ok vs => .ok (v :: vs)

/-- The time span the Solve action accepts: the text splits on comma into
exactly two tokens `float` accepts. -/
def timeSpanOf (txt : String) : Option (ℚ × ℚ) :=
  match mapFloatE (splitOnChar ',' txt.toList) with
  | .ok [a, b] => some (a, b)
  | _ => none

/-- The body of `solve` inside its `try`, with the early `return` after a
parse failure modelled as `.ok none`.  Events record the dialogs shown so
far and the moment `solve_ivp` is invoked. -/
def solve_body (b : NumpyBackend) (s : GuiState) :
    Except PyErr (Option GuiState) × List Event :=
  match mapFloatE (splitOnChar ',' s.timeText.toList) with
  | .error e => (.error e, [])
  | .ok t_span =>
    match t_span with
    | [t0, tf] =>
      match floatE s.icText with
      | .error e => (.error e, [])
      | .ok y0 =>
        match parse_equation s with
        | (none, evs) => (.ok none, evs)
        | (some expr, evs) =>
          match solve_ivp (ode_func b expr) t0 tf [y0] with
          | (.ok (ts, ys), evs2) =>
            (.ok (some { s with plot :=
              { curves := [(ts.zip ys, "Numerical Solution")]
                title := none
                xlabel := some "Time (t)"
                ylabel := some "y(t)"
                grid := false
                legend := true } }), evs ++ Event.solveIvpCall :: evs2)
          | (.error e, evs2) => (.error e, evs ++ Event.solveIvpCall :: evs2)
    | _ => (.error (.valueError "Time span must contain exactly two numbers"), [])

/-- The dialog `solve`'s handlers show for an escaped exception:
`ValueError` is caught first (`Input error`), anything else by the generic
handler (`Solution error`). -/
def dialogFor : PyErr → String
  | .valueError m => "Input error: " ++ m
  | e => "Solution error: " ++ e.msg

/-- Model of the `solve` action: run the body; on an exception show the
corresponding dialog and keep the state (in particular the axes)
unchanged; on the early `return` keep the state unchanged as well. -/
def solve (b : NumpyBackend) (s : GuiState) : GuiState × List Event :=
  match solve_body b s with
  | (.ok none, evs) => (s, evs)
  | (.ok (some s2), evs) => (s2, evs)
  | (.error e, evs) => (s, evs ++ show_error (dialogFor e))

/-- Success discriminator for a `solve_body` result. -/
def isSuccess (r : Except PyErr (Option GuiState) × List Event) : Bool :=
  match r.1 with
  | .ok (some _) => true
  | _ => false

/-! ## Examples dialog -/

/-- One preset of the Examples dialog. -/
structure ExampleDef where
  name : String
  eq : String
  params : List (String × String)
  ic : String
  tspan : String
  deriving DecidableEq, Repr

/-- The four fixed presets of `show_examples`, literally. -/
def examples : List ExampleDef :=
  [ ⟨"Exponential Decay", "dy/dt = -a*y", [("a", "0.5")], "1.0", "0, 5"⟩,
    ⟨"Harmonic Oscillator", "dy/dt = -k*y", [("k", "1.0")], "0.0", "0, 10"⟩,
    ⟨"Forced Oscillator", "dy/dt = -k*y + sin(b*t)", [("k", "1.0"), ("b", "3.0")], "0.0", "0, 20"⟩,
    ⟨"Logistic Growth", "dy/dt = c*y*(1 - y)", [("c", "0.8")], "0.1", "0, 10"⟩ ]

/-- Modelled from the spec: the `load_example` method invoked by the
preset buttons is referenced by `show_examples` but its body is among the
methods the source omits; per the spec it overwrites the Input Panel
fields with the preset values (the equation, initial-condition and
time-span texts, and the entry of each parameter the preset carries) and
does not auto-solve. -/
def load_example (s : GuiState) (eq : String) (ps : List (String × String))
    (ic tspan : String) : GuiState :=
  { s with
    eqText := eq
    icText := ic
    timeText := tspan
    paramEntries := s.paramEntries.map
      (fun p =>
        match ps.lookup p.1 with
        | some v => (p.1, v)
        | none => p) }

/-! ## Concrete states used to instantiate the theorems -/

/-- The default state with the equation text replaced by one lacking `=`. -/
def noEqState : GuiState := { initState with eqText := "y + t" }

/-- The default state with a non-numeric time-span text. -/
def c1State : GuiState := { initState with timeText := "abc" }

/-- The default state with a three-token time-span text. -/
def badTimeState : GuiState := { initState with timeText := "1,2,3" }

/-- Linear decay with the `a` parameter field left empty, so that the
substituted expression keeps `a` free and evaluation raises `NameError`. -/
def s5State : GuiState :=
  { initState with
    eqText := "dy/dt = -a*y"
    timeText := "0, 5"
    paramEntries := [("a", ""), ("b", "1.0"), ("c", "0.8"), ("k", "1.0")] }

/-- The expression `parse_equation` produces for `s5State`. -/
def expr5 : Expr := Expr.mul (Expr.neg (Expr.sym "a")) (Expr.sym "y")

/-- A state whose Solve succeeds: constant right-hand side `a` with
`a = 0`. -/
def okState : GuiState :=
  { initState with
    eqText := "dy/dt = a"
    timeText := "0, 1"
    paramEntries := [("a", "0.0"), ("b", "1.0"), ("c", "0.8"), ("k", "1.0")] }

/-- A state exercising parameter substitution with the `a` field empty. -/
def s7State : GuiState :=
  { initState with
    eqText := "dy/dt = -a*y + b"
    paramEntries := [("a", ""), ("b", "1.0"), ("c", "0.8"), ("k", "1.0")] }

/-- The expression `sympify` produces for `s7State`. -/
def expr7 : Expr :=
  Expr.add (Expr.mul (Expr.neg (Expr.sym "a")) (Expr.sym "y")) (Expr.sym "b")


/-! ## Lemmas about the string primitives -/

theorem splitOnChar_ne_nil (sep : Char) (cs : List Char) : splitOnChar sep cs ≠ [] := by
  induction cs with
  | nil => simp [splitOnChar]
  | cons c cs ih =>
    by_cases hc : c = sep
    · simp [splitOnChar, hc]
    · cases hr : splitOnChar sep cs with
      | nil => simp [splitOnChar, hc, hr]
      | cons h t => simp [splitOnChar, hc, hr]

theorem splitOnChar_not_mem {sep : Char} {q : List Char} (h : sep ∉ q) :
    splitOnChar sep q = [q] := by
  induction q with
  | nil => rfl
  | cons c cs ih =>
    have hc : c ≠ sep := fun hcc => h (hcc ▸ List.mem_cons_self c cs)
    have hcs : sep ∉ cs := fun hm => h (List.mem_cons_of_mem c hm)
    simp [splitOnChar, hc, ih hcs]

theorem splitOnChar_append {sep : Char} {p : List Char} (rest : List Char)
    (hp : sep ∉ p) :
    splitOnChar sep (p ++ sep :: rest) = p :: splitOnChar sep rest := by
  induction p with
  | nil => simp [splitOnChar]
  | cons c cs ih =>
    have hc : c ≠ sep := fun hcc => hp (hcc ▸ List.mem_cons_self c cs)
    have hcs : sep ∉ cs := fun hm => hp (List.mem_cons_of_mem c hm)
    simp only [List.cons_append, splitOnChar, List.append_eq]
    rw [ih hcs]
    simp [hc]

/-! ## C8: the Clear action -/

/-- C8: pressing Clear, in every state, leaves the chart with zero
plotted curves, the title `Solution Plot` restored, and the grid
restored. -/
theorem clear_plot_resets (s : GuiState) :
    (clear_plot s).plot.curves = [] ∧
    (clear_plot s).plot.title = some "Solution Plot" ∧
    (clear_plot s).plot.grid = true :=
  ⟨rfl, rfl, rfl⟩

/-! ## C6: the right-hand-side extraction -/

/-- C6 counterexample: on an equation text with two `=` characters the
code's `split("=")[1]` keeps only the segment between the first and the
second `=`, not the entire substring after the first `=` the claim
describes. -/
theorem rhs_split_counterexample :
    rhsFromEqL ("y=t=1".toList) = "t".toList ∧
    rhsAfterFirstEqSpec ("y=t=1".toList) = "t=1".toList ∧
    "t".toList ≠ "t=1".toList := by
  decide

/-- C6 (amended): for equation text containing at least one `=`, the
parser takes the segment strictly between the first and the second `=`
character (equivalently, the entire substring after the first `=` when
the text contains exactly one), stripped of surrounding whitespace. -/
theorem rhs_between_first_and_second_eq (p q : List Char)
    (hp : '=' ∉ p) (hq : '=' ∉ q) :
    rhsFromEqL (p ++ '=' :: q) = strip q ∧
    ∀ r, rhsFromEqL (p ++ '=' :: q ++ '=' :: r) = strip q := by
  constructor
  · unfold rhsFromEqL
    rw [splitOnChar_append q hp, splitOnChar_not_mem hq]
    rfl
  · intro r
    unfold rhsFromEqL
    simp only [List.cons_append, List.append_assoc]
    rw [splitOnChar_append (q ++ '=' :: r) hp, splitOnChar_append r hq]
    rfl

/-- C6 witness: the amended statement evaluated on concrete texts with
one and with two `=` characters. -/
theorem rhs_between_witness :
    rhsFromEqL ("dy/dt ".toList ++ '=' :: " -a*y ".toList) = strip " -a*y ".toList ∧
    rhsFromEqL ("dy/dt ".toList ++ '=' :: " -a*y ".toList ++ '=' :: " 1".toList) =
      strip " -a*y ".toList :=
  ⟨(rhs_between_first_and_second_eq "dy/dt ".toList " -a*y ".toList
      (by decide) (by decide)).1,
   (rhs_between_first_and_second_eq "dy/dt ".toList " -a*y ".toList
      (by decide) (by decide)).2 " 1".toList⟩

/-! ## C2: loading a preset -/

/-- C2: for every preset of the Examples dialog, `load_example` (invoked
by the preset's button) overwrites the equation, initial-condition and
time-span fields and the entry of each parameter the preset carries with
the preset's literal values; in particular, Logistic Growth sets the
equation field to `dy/dt = c*y*(1 - y)`, the `c` field to `0.8`, the
initial condition to `0.1` and the time span to `0, 10`. -/
theorem load_example_overwrites (s : GuiState) (va vb vc vk : String)
    (h : s.paramEntries = [("a", va), ("b", vb), ("c", vc), ("k", vk)]) :
    (∀ ex ∈ examples,
      (load_example s ex.eq ex.params ex.ic ex.tspan).eqText = ex.eq ∧
      (load_example s ex.eq ex.params ex.ic ex.tspan).icText = ex.ic ∧
      (load_example s ex.eq ex.params ex.ic ex.tspan).timeText = ex.tspan ∧
      ∀ nv ∈ ex.params,
        (load_example s ex.eq ex.params ex.ic ex.tspan).paramEntries.lookup nv.1 =
          some nv.2) ∧
    ((load_example s "dy/dt = c*y*(1 - y)" [("c", "0.8")] "0.1" "0, 10").eqText =
        "dy/dt = c*y*(1 - y)" ∧
      (load_example s "dy/dt = c*y*(1 - y)" [("c", "0.8")] "0.1" "0, 10").paramEntries.lookup "c" =
        some "0.8" ∧
      (load_example s "dy/dt = c*y*(1 - y)" [("c", "0.8")] "0.1" "0, 10").icText = "0.1" ∧
      (load_example s "dy/dt = c*y*(1 - y)" [("c", "0.8")] "0.1" "0, 10").timeText = "0, 10") := by
  constructor
  · intro ex hex
    fin_cases hex <;>
      refine ⟨rfl, rfl, rfl, ?_⟩ <;>
      · intro nv hnv
        fin_cases hnv <;> simp [load_example, h, List.lookup]
  · refine ⟨rfl, ?_, rfl, rfl⟩
    simp [load_example, h, List.lookup]

/-- C2 witness: loading the Logistic Growth preset from the startup state
sets the four fields to the preset's literal values. -/
theorem load_example_overwrites_witness :
    (load_example initState "dy/dt = c*y*(1 - y)" [("c", "0.8")] "0.1" "0, 10").eqText =
        "dy/dt = c*y*(1 - y)" ∧
      (load_example initState "dy/dt = c*y*(1 - y)" [("c", "0.8")] "0.1" "0, 10").paramEntries.lookup "c" =
        some "0.8" ∧
      (load_example initState "dy/dt = c*y*(1 - y)" [("c", "0.8")] "0.1" "0, 10").icText = "0.1" ∧
      (load_example initState "dy/dt = c*y*(1 - y)" [("c", "0.8")] "0.1" "0, 10").timeText = "0, 10" :=
  (load_example_overwrites initState "0.5" "1.0" "0.8" "1.0" rfl).2

/-! ## Lemmas about the error paths -/

theorem floatE_error {str : String} {e : PyErr} (h : floatE str = .error e) :
    ∃ m, e = .valueError m := by
  unfold floatE at h
  rcases hp : pythonFloat str.toList with _ | q
  · rw [hp] at h
    simp only [Except.error.injEq] at h
    exact ⟨_, h.symm⟩
  · rw [hp] at h
    simp at h

theorem mapFloatE_error : ∀ {parts : List (List Char)} {e : PyErr},
    mapFloatE parts = .error e → ∃ m, e = .valueError m := by
  intro parts
  induction parts with
  | nil => intro e h; simp [mapFloatE] at h
  | cons p ps ih =>
    intro e h
    unfold mapFloatE at h
    rcases hf : floatE (String.mk p) with e1 | v
    · rw [hf] at h
      simp only [Except.error.injEq] at h
      exact h ▸ floatE_error hf
    · rw [hf] at h
      rcases hr : mapFloatE ps with e2 | vs
      · rw [hr] at h
        simp only [Except.error.injEq] at h
        exact h ▸ ih hr
      · rw [hr] at h
        simp at h

theorem parse_equation_none_shape {s : GuiState} {evs : List Event}
    (h : parse_equation s = (none, evs)) : ∃ m, evs = [Event.showError m] := by
  unfold parse_equation at h
  rcases hb : parse_equation_body s with e | ex
  · rw [hb] at h
    simp only [show_error, Prod.mk.injEq] at h
    exact ⟨_, h.2.symm⟩
  · rw [hb] at h
    simp at h

theorem parse_none_no_integration (b : NumpyBackend) (s : GuiState)
    (hpn : (parse_equation s).1 = none) :
    Event.solveIvpCall ∉ (solve b s).2 := by
  obtain ⟨m, hpe⟩ : ∃ m, parse_equation s = (none, [Event.showError m]) := by
    rcases hp : parse_equation s with ⟨o, pevs⟩
    rw [hp] at hpn
    simp at hpn
    subst hpn
    obtain ⟨m, rfl⟩ := parse_equation_none_shape hp
    first
      | exact ⟨m, hp⟩
      | exact ⟨m, rfl⟩
  unfold solve solve_body
  rcases hmf : mapFloatE (splitOnChar ',' s.timeText.toList) with e | l
  · simp [show_error]
  · rcases l with _ | ⟨t0, _ | ⟨tf, _ | ⟨x, xs⟩⟩⟩
    · simp [show_error]
    · simp [show_error]
    · rcases hic : floatE s.icText with e | y0
      · simp [show_error]
      · rw [hpe]
        simp [show_error]
    · simp [show_error]

/-! ## C3: equation text without an equals sign -/

/-- C3: for every equation text without `=`, the parser raises the format
error, shows it through the error-display path and returns no callable,
and the Solve action never reaches `solve_ivp`. -/
theorem no_eq_format_error (b : NumpyBackend) (s : GuiState)
    (h : '=' ∉ s.eqText.toList) :
    parse_equation s =
      (none, [Event.showError "Equation parsing error: Equation must contain = sign"]) ∧
    Event.solveIvpCall ∉ (solve b s).2 := by
  have hpe : parse_equation s =
      (none, [Event.showError "Equation parsing error: Equation must contain = sign"]) := by
    unfold parse_equation parse_equation_body
    rw [if_neg h]
    rfl
  exact ⟨hpe, parse_none_no_integration b s (by rw [hpe])⟩

/-- C3 witness: the format error on the concrete equation text `y + t`. -/
theorem no_eq_format_error_witness :
    parse_equation noEqState =
      (none, [Event.showError "Equation parsing error: Equation must contain = sign"]) ∧
    Event.solveIvpCall ∉ (solve backend0 noEqState).2 :=
  no_eq_format_error backend0 noEqState (by decide)

/-! ## C4: malformed time span -/

/-- C4: whenever the time-span text does not split on comma into exactly
two tokens `float` accepts, Solve shows exactly one `Input error` dialog,
leaves the state unchanged, and never reaches `solve_ivp`. -/
theorem bad_timespan_input_error (b : NumpyBackend) (s : GuiState)
    (h : timeSpanOf s.timeText = none) :
    (∃ m, solve b s = (s, [Event.showError ("Input error: " ++ m)])) ∧
    Event.solveIvpCall ∉ (solve b s).2 := by
  have hsolve : ∃ m, solve b s = (s, [Event.showError ("Input error: " ++ m)]) := by
    unfold timeSpanOf at h
    rcases hmf : mapFloatE (splitOnChar ',' s.timeText.toList) with e | l
    · obtain ⟨m, rfl⟩ := mapFloatE_error hmf
      refine ⟨m, ?_⟩
      unfold solve solve_body
      rw [hmf]
      simp [show_error, dialogFor]
    · rw [hmf] at h
      refine ⟨"Time span must contain exactly two numbers", ?_⟩
      unfold solve solve_body
      rw [hmf]
      rcases l with _ | ⟨t0, _ | ⟨tf, _ | ⟨x, xs⟩⟩⟩
      · simp [show_error, dialogFor]
      · simp [show_error, dialogFor]
      · simp at h
      · simp [show_error, dialogFor]
  obtain ⟨m, hs⟩ := hsolve
  exact ⟨⟨m, hs⟩, by rw [hs]; simp⟩

/-- C4 witness: the input error on the concrete time-span text `1,2,3`. -/
theorem bad_timespan_input_error_witness :
    (∃ m, solve backend0 badTimeState =
      (badTimeState, [Event.showError ("Input error: " ++ m)])) ∧
    Event.solveIvpCall ∉ (solve backend0 badTimeState).2 :=
  bad_timespan_input_error backend0 badTimeState (by decide)

/-! ## C1: errors are caught at the action boundary -/

theorem solve_body_ok_none {b : NumpyBackend} {s : GuiState} {evs : List Event}
    (h : solve_body b s = (.ok none, evs)) :
    parse_equation s = (none, evs) := by
  unfold solve_body at h
  repeat' split at h
  all_goals simp_all

/-- C1: every error of the taxonomy raised inside the Solve action is
caught at the action's boundary and surfaced as a modal error dialog —
exceptions escaping the body become exactly one `show_error` dialog with
the state unchanged, a parse failure has already surfaced its own dialog
and leaves the state unchanged, and every call of the (spec-modelled)
`show_error` succeeds, so no error crashes the process. -/
theorem solve_error_boundary (b : NumpyBackend) (s : GuiState) :
    (∀ e evs, solve_body b s = (.error e, evs) →
      solve b s = (s, evs ++ [Event.showError (dialogFor e)])) ∧
    (∀ evs, solve_body b s = (.ok none, evs) →
      (∃ m, evs = [Event.showError m]) ∧ solve b s = (s, evs)) ∧
    (∀ m, show_error m = [Event.showError m]) := by
  refine ⟨?_, ?_, fun m => rfl⟩
  · intro e evs h
    unfold solve
    rw [h]
    simp [show_error]
  · intro evs h
    obtain ⟨m, rfl⟩ := parse_equation_none_shape (solve_body_ok_none h)
    refine ⟨⟨m, rfl⟩, ?_⟩
    unfold solve
    rw [h]

/-- C1 witness: the boundary theorem applied to a state whose time-span
text is non-numeric; the escaped `ValueError` becomes one modal dialog. -/
theorem solve_error_boundary_witness :
    solve backend0 c1State =
      (c1State,
        [] ++ [Event.showError
          (dialogFor (PyErr.valueError "could not convert string to float: abc"))]) :=
  (solve_error_boundary backend0 c1State).1
    (PyErr.valueError "could not convert string to float: abc") [] (by decide)

/-! ## C5: evaluation errors during integration -/

theorem ode_func_error_events {b : NumpyBackend} {expr : Expr} {t : ℚ} {ys : List ℚ}
    {e : PyErr} {evs : List Event}
    (h : ode_func b expr t ys = (.error e, evs)) :
    evs = [Event.showError ("Evaluation error: " ++ e.msg)] := by
  unfold ode_func at h
  rcases ht : ode_func_try b expr t ys with e2 | v
  · rw [ht] at h
    simp [show_error] at h
    obtain ⟨he, hevs⟩ := h
    subst he
    subst hevs
    rfl
  · rw [ht] at h
    simp at h

theorem integrateEuler_ode_error {b : NumpyBackend} {expr : Expr} :
    ∀ (ts : List ℚ) (y : ℚ) {e : PyErr} {evs : List Event},
    integrateEuler (ode_func b expr) ts y = (.error e, evs) →
    Event.showError ("Evaluation error: " ++ e.msg) ∈ evs := by
  intro ts
  induction ts with
  | nil => intro y e evs h; simp [integrateEuler] at h
  | cons t rest ih =>
    intro y e evs h
    cases rest with
    | nil =>
      unfold integrateEuler at h
      rcases hf : ode_func b expr t [y] with ⟨fr, fevs⟩
      cases fr with
      | ok v =>
        rw [hf] at h
        simp at h
      | error e2 =>
        rw [hf] at h
        simp at h
        obtain ⟨he, hevs⟩ := h
        subst he
        subst hevs
        have hev := ode_func_error_events hf
        rw [hev]
        simp
    | cons t2 ts2 =>
      unfold integrateEuler at h
      rcases hf : ode_func b expr t [y] with ⟨fr, fevs⟩
      cases fr with
      | ok d =>
        rw [hf] at h
        simp only [] at h
        rcases hr : integrateEuler (ode_func b expr) (t2 :: ts2) (y + (t2 - t) * d)
          with ⟨rr, revs⟩
        rw [hr] at h
        cases rr with
        | ok ys2 => simp [Except.map] at h
        | error e2 =>
          simp [Except.map] at h
          obtain ⟨he, hevs⟩ := h
          subst he
          subst hevs
          exact List.mem_append_right _ (ih _ hr)
      | error e2 =>
        rw [hf] at h
        simp at h
        obtain ⟨he, hevs⟩ := h
        subst he
        subst hevs
        have hev := ode_func_error_events hf
        rw [hev]
        simp

theorem solve_ivp_error_events {f : ℚ → List ℚ → Except PyErr ℚ × List Event}
    {t0 tf : ℚ} {y0 : List ℚ} {e : PyErr} {evs : List Event}
    (h : solve_ivp f t0 tf y0 = (.error e, evs)) :
    integrateEuler f (linspace t0 tf 1000) (y0.headD 0) = (.error e, evs) := by
  unfold solve_ivp at h
  dsimp only at h
  rcases hi : integrateEuler f (linspace t0 tf 1000) (y0.headD 0) with ⟨r, revs⟩
  rw [hi] at h
  cases r with
  | ok ys => simp at h
  | error e2 =>
    simp at h
    obtain ⟨he, hevs⟩ := h
    subst he
    subst hevs
    rfl

/-- C5: when evaluating the right-hand side raises during integration,
the wrapper reports the evaluation error through the error-display path
and re-raises it, so the Solve action aborts with an error dialog and the
state — in particular the previously displayed plot — is unchanged: the
axes are neither cleared nor redrawn. -/
theorem eval_error_aborts_solve (b : NumpyBackend) (s : GuiState)
    (t0 tf y0 : ℚ) (expr : Expr) (e : PyErr) (evs0 evs2 : List Event)
    (h1 : mapFloatE (splitOnChar ',' s.timeText.toList) = .ok [t0, tf])
    (h2 : floatE s.icText = .ok y0)
    (h3 : parse_equation s = (some expr, evs0))
    (h4 : solve_ivp (ode_func b expr) t0 tf [y0] = (.error e, evs2)) :
    solve b s =
      (s, evs0 ++ Event.solveIvpCall ::
        (evs2 ++ [Event.showError (dialogFor e)])) ∧
    Event.showError ("Evaluation error: " ++ e.msg) ∈ evs2 := by
  constructor
  · unfold solve solve_body
    simp only [h1, h2, h3, h4, show_error]
    simp
  · exact integrateEuler_ode_error _ _ (solve_ivp_error_events h4)

theorem timeSpanOf_inv {txt : String} {t0 tf : ℚ}
    (h : timeSpanOf txt = some (t0, tf)) :
    mapFloatE (splitOnChar ',' txt.toList) = .ok [t0, tf] := by
  unfold timeSpanOf at h
  rcases hm : mapFloatE (splitOnChar ',' txt.toList) with e | l
  · rw [hm] at h
    simp at h
  · rw [hm] at h
    rcases l with _ | ⟨a, _ | ⟨c, _ | ⟨x, xs⟩⟩⟩
    · simp at h
    · simp at h
    · simp at h
      obtain ⟨h1, h2⟩ := h
      subst h1
      subst h2
      first
        | exact hm
        | rfl
    · simp at h

set_option maxRecDepth 1000000 in
/-- C5 witness: linear decay with the `a` field left empty; the first
right-hand-side evaluation raises `NameError`, one evaluation-error dialog
and one solution-error dialog are shown, and the state is unchanged. -/
theorem eval_error_aborts_solve_witness :
    solve backend0 s5State =
      (s5State, [] ++ Event.solveIvpCall ::
        ([Event.showError "Evaluation error: name a is not defined"] ++
          [Event.showError (dialogFor (PyErr.nameError "name a is not defined"))])) ∧
    Event.showError
        ("Evaluation error: " ++ (PyErr.nameError "name a is not defined").msg) ∈
      [Event.showError "Evaluation error: name a is not defined"] := by
  obtain ⟨⟨t0, tf⟩, hts⟩ : ∃ p, timeSpanOf s5State.timeText = some p := ⟨_, rfl⟩
  obtain ⟨y0, hic⟩ : ∃ y, floatE s5State.icText = .ok y := ⟨_, rfl⟩
  exact eval_error_aborts_solve backend0 s5State t0 tf y0 expr5
    (PyErr.nameError "name a is not defined") []
    [Event.showError "Evaluation error: name a is not defined"]
    (timeSpanOf_inv hts) hic (by decide) rfl

/-! ## C7: parameter substitution -/

theorem floatE_ok_iff (str : String) (v : ℚ) :
    floatE str = .ok v ↔ pythonFloat str.toList = some v := by
  unfold floatE
  rcases hp : pythonFloat str.toList with _ | q
  · simp
  · simp

theorem lookup_eq_some_iff {l : List (String × ℚ)} (hnd : (l.map Prod.fst).Nodup)
    (n : String) (v : ℚ) :
    l.lookup n = some v ↔ (n, v) ∈ l := by
  induction l with
  | nil => simp [List.lookup]
  | cons p rest ih =>
    obtain ⟨a, w⟩ := p
    simp only [List.map_cons, List.nodup_cons] at hnd
    obtain ⟨ha, hrest⟩ := hnd
    by_cases hna : n = a
    · subst hna
      simp only [List.lookup_cons, beq_self_eq_true]
      constructor
      · intro hw
        simp only [Option.some.injEq] at hw
        subst hw
        exact List.mem_cons_self _ _
      · intro hm
        rcases List.mem_cons.mp hm with hh | ht
        · rw [Prod.mk.injEq] at hh
          rw [hh.2]
        · exact absurd (List.mem_map.mpr ⟨(n, v), ht, rfl⟩) ha
    · have hb : (n == a) = false := beq_eq_false_iff_ne.mpr hna
      simp only [List.lookup_cons, hb]
      rw [ih hrest]
      simp only [List.mem_cons, Prod.mk.injEq]
      constructor
      · intro hm
        exact Or.inr hm
      · rintro (⟨h1, _⟩ | hm)
        · exact absurd h1 hna
        · exact hm

theorem paramValues_mem : ∀ {entries : List (String × String)}
    {pv : List (String × ℚ)}, paramValues entries = .ok pv →
    ∀ n v, (n, v) ∈ pv ↔
      ∃ str, (n, str) ∈ entries ∧ str ≠ "" ∧ pythonFloat str.toList = some v := by
  intro entries
  induction entries with
  | nil =>
    intro pv h n v
    simp only [paramValues, Except.ok.injEq] at h
    subst h
    simp
  | cons p rest ih =>
    obtain ⟨nm, str⟩ := p
    intro pv h n v
    by_cases hs : str = ""
    · subst hs
      simp only [paramValues, if_pos rfl] at h
      rw [ih h n v]
      constructor
      · rintro ⟨str2, hmem, hne, hpf⟩
        exact ⟨str2, List.mem_cons_of_mem _ hmem, hne, hpf⟩
      · rintro ⟨str2, hmem, hne, hpf⟩
        rcases List.mem_cons.mp hmem with hh | ht
        · rw [Prod.mk.injEq] at hh
          exact absurd hh.2 hne
        · exact ⟨str2, ht, hne, hpf⟩
    · simp only [paramValues, if_neg hs] at h
      rcases hf : floatE str with e | w
      · rw [hf] at h
        simp at h
      · rw [hf] at h
        rcases hr : paramValues rest with e | pv2
        · rw [hr] at h
          simp at h
        · rw [hr] at h
          simp only [Except.ok.injEq] at h
          subst h
          have hws : pythonFloat str.toList = some w := (floatE_ok_iff str w).mp hf
          constructor
          · intro hm
            rcases List.mem_cons.mp hm with hh | ht
            · rw [Prod.mk.injEq] at hh
              obtain ⟨h1, h2⟩ := hh
              subst h1
              subst h2
              exact ⟨str, List.mem_cons_self _ _, hs, hws⟩
            · obtain ⟨str2, hm2, hne2, hpf2⟩ := (ih hr n v).mp ht
              exact ⟨str2, List.mem_cons_of_mem _ hm2, hne2, hpf2⟩
          · rintro ⟨str2, hmem, hne, hpf⟩
            rcases List.mem_cons.mp hmem with hh | ht
            · rw [Prod.mk.injEq] at hh
              obtain ⟨h1, h2⟩ := hh
              subst h1
              subst h2
              have hvw : v = w := by
                rw [hpf] at hws
                exact Option.some.inj hws
              subst hvw
              exact List.mem_cons_self _ _
            · exact List.mem_cons_of_mem _ ((ih hr n v).mpr ⟨str2, ht, hne, hpf⟩)

theorem paramValues_fst : ∀ {entries : List (String × String)}
    {pv : List (String × ℚ)}, paramValues entries = .ok pv →
    pv.map Prod.fst = (entries.filter (fun p => p.2 ≠ "")).map Prod.fst := by
  intro entries
  induction entries with
  | nil =>
    intro pv h
    simp only [paramValues, Except.ok.injEq] at h
    subst h
    simp
  | cons p rest ih =>
    obtain ⟨nm, str⟩ := p
    intro pv h
    by_cases hs : str = ""
    · subst hs
      simp only [paramValues, if_pos rfl] at h
      rw [ih h]
      simp [List.filter_cons]
    · simp only [paramValues, if_neg hs] at h
      rcases hf : floatE str with e | w
      · rw [hf] at h
        simp at h
      · rw [hf] at h
        rcases hr : paramValues rest with e | pv2
        · rw [hr] at h
          simp at h
        · rw [hr] at h
          simp only [Except.ok.injEq] at h
          subst h
          simp [List.filter_cons, hs, ih hr]

theorem freeSyms_subs (pv : List (String × ℚ)) (e : Expr) (n : String) :
    n ∈ freeSyms (subs pv e) ↔ n ∈ freeSyms e ∧ pv.lookup n = none := by
  induction e with
  | num q => simp [subs, freeSyms]
  | sym m =>
    rcases hl : pv.lookup m with _ | w
    · constructor
      · intro hn
        have hnm : n = m := by simpa [subs, hl, freeSyms] using hn
        subst hnm
        exact ⟨by simp [freeSyms], hl⟩
      · intro h
        have hnm : n = m := by simpa [freeSyms] using h.1
        subst hnm
        simp [subs, hl, freeSyms]
    · constructor
      · intro hn
        exfalso
        simp [subs, hl, freeSyms] at hn
      · rintro ⟨h1, h2⟩
        have hnm : n = m := by simpa [freeSyms] using h1
        subst hnm
        rw [hl] at h2
        exact Option.noConfusion h2
  | add x y ihx ihy => simp [subs, freeSyms, ihx, ihy, or_and_right]
  | sub x y ihx ihy => simp [subs, freeSyms, ihx, ihy, or_and_right]
  | mul x y ihx ihy => simp [subs, freeSyms, ihx, ihy, or_and_right]
  | div x y ihx ihy => simp [subs, freeSyms, ihx, ihy, or_and_right]
  | pow x y ihx ihy => simp [subs, freeSyms, ihx, ihy, or_and_right]
  | neg x ihx => simp [subs, freeSyms, ihx]
  | call f a iha => simp [subs, freeSyms, iha]

/-- C7: during parsing, the substitution dictionary contains exactly the
parameters whose entry field is non-empty, each bound to the `float` value
of that field (so every such parameter is substituted in the expression),
and a parameter stays a free symbol of the substituted expression exactly
when it occurs in the parsed expression and has no dictionary binding —
parameters with an empty field get no default value. -/
theorem params_substitution (s : GuiState) (expr : Expr) (pv : List (String × ℚ))
    (heq : '=' ∈ s.eqText.toList)
    (hparse : sympifyL (rhsFromEqL s.eqText.toList) = .ok expr)
    (hpv : paramValues s.paramEntries = .ok pv)
    (hnd : (s.paramEntries.map Prod.fst).Nodup) :
    parse_equation s = (some (subs pv expr), []) ∧
    (∀ n v, pv.lookup n = some v ↔
      ∃ str, (n, str) ∈ s.paramEntries ∧ str ≠ "" ∧ pythonFloat str.toList = some v) ∧
    (∀ n, n ∈ freeSyms (subs pv expr) ↔ n ∈ freeSyms expr ∧ pv.lookup n = none) := by
  refine ⟨?_, ?_, fun n => freeSyms_subs pv expr n⟩
  · unfold parse_equation parse_equation_body
    rw [if_pos heq, hparse, hpv]
  · intro n v
    have hnd2 : (pv.map Prod.fst).Nodup := by
      rw [paramValues_fst hpv]
      exact List.Nodup.sublist ((List.filter_sublist _).map Prod.fst) hnd
    rw [lookup_eq_some_iff hnd2 n v]
    exact paramValues_mem hpv n v

/-- C7 witness: the default equation with parameter `a` cleared; `b` (and
`c`, `k`) are substituted at their float values while `a` stays a free
symbol of the substituted expression. -/
theorem params_substitution_witness :
    ∃ pv, parse_equation s7State = (some (subs pv expr7), []) ∧
      (∀ n v, pv.lookup n = some v ↔
        ∃ str, (n, str) ∈ s7State.paramEntries ∧ str ≠ "" ∧
          pythonFloat str.toList = some v) ∧
      (∀ n, n ∈ freeSyms (subs pv expr7) ↔
        n ∈ freeSyms expr7 ∧ pv.lookup n = none) := by
  obtain ⟨pv, hpv⟩ : ∃ pv, paramValues s7State.paramEntries = .ok pv := ⟨_, rfl⟩
  exact ⟨pv, params_substitution s7State expr7 pv (by decide) (by decide) hpv (by decide)⟩

/-! ## C10: axes state after a successful Solve -/

theorem solve_body_success_plot {b : NumpyBackend} {s s2 : GuiState}
    {evs : List Event} (h : solve_body b s = (.ok (some s2), evs)) :
    ∃ ts ys : List ℚ, s2.plot =
      { curves := [(ts.zip ys, "Numerical Solution")], title := none,
        xlabel := some "Time (t)", ylabel := some "y(t)",
        grid := false, legend := true } := by
  unfold solve_body at h
  repeat' split at h
  all_goals simp_all
  obtain ⟨h1, _⟩ := h
  exact ⟨_, _, by rw [← h1]⟩

/-- C10: after every successful Solve the displayed axes carry the xlabel
`Time (t)`, the ylabel `y(t)` and a legend, while the title `Solution
Plot` and the grid set at startup and by Clear are absent (solve clears
the axes and does not restore them); the next Clear restores the title
and the grid. -/
theorem solve_success_axes (b : NumpyBackend) (s s2 : GuiState)
    (evs : List Event) (h : solve_body b s = (.ok (some s2), evs)) :
    s2.plot.xlabel = some "Time (t)" ∧ s2.plot.ylabel = some "y(t)" ∧
    s2.plot.legend = true ∧ s2.plot.title = none ∧ s2.plot.grid = false ∧
    (clear_plot s2).plot.title = some "Solution Plot" ∧
    (clear_plot s2).plot.grid = true ∧
    solve b s = (s2, evs) := by
  obtain ⟨ts, ys, hp⟩ := solve_body_success_plot h
  refine ⟨by rw [hp], by rw [hp], by rw [hp], by rw [hp], by rw [hp], rfl, rfl, ?_⟩
  unfold solve
  rw [h]

set_option maxRecDepth 1000000 in
/-- C10 witness: a successful Solve on a constant right-hand side; the
resulting axes carry the xlabel and no title or grid. -/
theorem solve_success_axes_witness :
    ∃ s2 evs, solve_body backend0 okState = (.ok (some s2), evs) ∧
      s2.plot.xlabel = some "Time (t)" ∧ s2.plot.title = none ∧
      s2.plot.grid = false := by
  obtain ⟨s2, evs, h⟩ :
      ∃ s2 evs, solve_body backend0 okState = (.ok (some s2), evs) := ⟨_, _, rfl⟩
  obtain ⟨h1, _, _, h4, h5, _, _, _⟩ := solve_success_axes backend0 okState s2 evs h
  exact ⟨s2, evs, h, h1, h4, h5⟩

end ODE

